import Mathlib

/-!
Verification of the UNR_PSY_763 teaching notebooks: the image-labeler
notebook (`utils/Labeler_example.ipynb`), the curve-fitting notebook
(`Week_13_Linear_Nonlinear_Fits/..._answers.ipynb`) and the PCA notebook
(`Week_14_PCA/Week_14_PCA.ipynb`).  Numeric arrays are modelled exactly:
float matrices become matrices over ℚ (or functions into ℝ where a
transcendental function appears), Python lists become Lean lists.
-/

namespace UNRPSY763

open Matrix

/-! ## Labeler notebook: tag specifications (cells 2 and 4) -/

/-- `tag_specs['outdoors']` from the labeler notebook. -/
def tag_specs_outdoors : List String :=
  ["outdoors", "indoors", "under water", "unclear", "not a scene", "untagged"]

/-- `tag_specs['evoked_emotion']` from the labeler notebook. -/
def tag_specs_evoked_emotion : List String :=
  ["Anger", "Disgust", "Fear", "Happiness", "Sadness", "Surprise", "Neutral", "untagged"]

/-- `tag_specs['reward']` from the labeler notebook. -/
def tag_specs_reward : List String :=
  ["0", "1", "2", "3", "4", "untagged"]

/-- `tag_specs['curves_vs_lines']` from the labeler notebook. -/
def tag_specs_curves_vs_lines : List String :=
  ["curved", "mix", "lines", "untagged"]

/-- `distance_features` from the labeler notebook (the levels of the
`distance` feature; the second entry reads "<4 ft (arm\x27s length)"). -/
def distance_features : List String :=
  ["<2 ft", "<4 ft (arm\x27s length)", "<20 ft (same room)", "< 100 ft", "> 100 ft", "untagged"]

/-! ## Labeler notebook: index range (cell 4) -/

/-- Python `range(start, stop, step)` for a positive `step`: the elements
`start, start+step, ...` strictly below `stop`. -/
def pyRange (start stop step : Nat) : List Nat :=
  (List.range ((stop - start + step - 1) / step)).map (fun k => start + step * k)

/-- `label_range = range(0, 1386, 1)` from the labeler notebook. -/
def label_range : List Nat := pyRange 0 1386 1

/-! ## Labeler notebook: one-hot design matrix (cell 11)

The notebook builds `X = np.zeros((n_images, n_features))` and, for each
image `i` with label `this_label`, sets `X[i, feature_names.index(this_label)] = 1.0`.
Row `i` of the result is therefore a zero row of length `n_features` with a
single `1.0` written at the index Python `list.index` returns, the first
occurrence of the label in `feature_names`.  `List.indexOf` has the same
first-occurrence semantics. -/

/-- One row of the design matrix `X`: zeros with `1.0` at
`feature_names.index(label)`. -/
def oneHotRow (feature_names : List String) (label : String) : List ℚ :=
  (List.replicate feature_names.length 0).set (feature_names.indexOf label) 1

/-- The design matrix `X` of the labeler notebook: one `oneHotRow` per
entry of `feature_labels`. -/
def designMatrix (feature_names feature_labels : List String) : List (List ℚ) :=
  feature_labels.map (oneHotRow feature_names)

/-! ## Labeler notebook: the JSON label file and its consumer (cells 10-11) -/

/-- A fragment of JSON values sufficient for the label file: arrays of
strings, and objects whose values are arrays of strings. -/
inductive JVal where
  | strs : List String → JVal
  | obj : List (String × List String) → JVal
deriving DecidableEq

/-- Lookup of a key in a decoded JSON object (association list). -/
def jlookup (features : List (String × JVal)) (k : String) : Option JVal :=
  (features.find? (fun p => p.1 == k)).map Prod.snd

/-- Cell 11 of the labeler notebook reads
`feature_labels = features['tag_specs']['distance']`: a lookup of
`"tag_specs"` at top level, then of `"distance"` inside it. -/
def consumer_feature_labels (features : List (String × JVal)) : Option (List String) :=
  match jlookup features "tag_specs" with
  | some (JVal.obj t) => (t.find? (fun p => p.1 == "distance")).map Prod.snd
  | _ => none

/-- Modelled from the spec: the JSON file the external `ImageTagger`
widget writes (its implementation is not in the repository source).  Per
the spec it is a JSON object keyed by tag-specification name, each value
the ordered array of string labels, plus the original tag specification
echoed back for validation; the echo sits under the key `"tag_specs"`,
the name the notebook gives the specification dictionary. -/
def labelerOutput (labels : List String) : List (String × JVal) :=
  [("distance", JVal.strs labels),
   ("tag_specs", JVal.obj [("distance", distance_features)])]

/-! ## Week 13 notebook: gauss and sinx (cells 3 and 7) -/

/-- `gauss` exactly as cell 3 writes it:
`amp * np.e**(-(x-mu)**2 / (2*sigma))`.  The denominator is `2*sigma`,
not `2*sigma**2`. -/
noncomputable def gauss (x mu sigma amp : ℝ) : ℝ :=
  amp * Real.exp (-(x - mu) ^ 2 / (2 * sigma))

/-- The standard one-dimensional Gaussian the docstring of `gauss`
describes (`sigma : std of Gaussian`) and the spec asserts:
`amp * exp(-(x-mu)^2 / (2*sigma^2))`. -/
noncomputable def gauss_std (x mu sigma amp : ℝ) : ℝ :=
  amp * Real.exp (-(x - mu) ^ 2 / (2 * sigma ^ 2))

/-- `sinx` exactly as cell 7 writes it:
`np.sin(x * 2 * np.pi * freq + phase) * amp`. -/
noncomputable def sinx (x freq phase amp : ℝ) : ℝ :=
  Real.sin (x * 2 * Real.pi * freq + phase) * amp

/-! ## Week 13 notebook: ridge regression (cells 28-29)

Cell 28 defines
`def ridge(X, Y, a=0): b = np.linalg.inv(X.T.dot(X) + a * np.eye(X.shape[1])).dot(X.T.dot(Y)); return b`.
Float matrices are modelled over ℚ; `np.linalg.inv`, which raises
`LinAlgError` exactly on a singular argument, is modelled by the explicit
inverse `det⁻¹ • adjugate` guarded by the singularity test. -/

/-- Explicit matrix inverse over ℚ: `det⁻¹ • adjugate`.  On an invertible
matrix this is the true inverse. -/
def matInvQ {n : ℕ} (A : Matrix (Fin n) (Fin n) ℚ) : Matrix (Fin n) (Fin n) ℚ :=
  A.det⁻¹ • A.adjugate

/-- The value `ridge(X, Y, a)` returns when the inversion succeeds:
`inv(X.T.dot(X) + a * eye(n)).dot(X.T.dot(Y))`. -/
def ridge {m n : ℕ} (X : Matrix (Fin m) (Fin n) ℚ) (Y : Fin m → ℚ) (a : ℚ) :
    Fin n → ℚ :=
  (matInvQ (Xᵀ * X + a • (1 : Matrix (Fin n) (Fin n) ℚ))).mulVec (Xᵀ.mulVec Y)

/-- `ridge` with its failure mode: `none` models the `LinAlgError` that
`np.linalg.inv` raises on a singular `X.T.dot(X) + a * eye(n)`. -/
def ridgeChecked {m n : ℕ} (X : Matrix (Fin m) (Fin n) ℚ) (Y : Fin m → ℚ) (a : ℚ) :
    Option (Fin n → ℚ) :=
  if (Xᵀ * X + a • (1 : Matrix (Fin n) (Fin n) ℚ)).det = 0 then none
  else some (ridge X Y a)

/-- Cell 29, `B_est = ridge(Xreg, y, a=0)`: the cell's value is the bare
helper call, with no catch or recovery around it. -/
def B_est {m n : ℕ} (Xreg : Matrix (Fin m) (Fin n) ℚ) (y : Fin m → ℚ) :
    Option (Fin n → ℚ) :=
  ridgeChecked Xreg y 0

/-- Over ℚ the explicit inverse coincides with Mathlib's. -/
lemma matInvQ_eq_inv {n : ℕ} (A : Matrix (Fin n) (Fin n) ℚ) : matInvQ A = A⁻¹ := by
  rw [Matrix.inv_def, Ring.inverse_eq_inv']
  rfl

/-- Adding `0 • I` is the identity on the Gram matrix. -/
lemma gram_add_zero_smul {m n : ℕ} (X : Matrix (Fin m) (Fin n) ℚ) :
    Xᵀ * X + (0 : ℚ) • (1 : Matrix (Fin n) (Fin n) ℚ) = Xᵀ * X := by
  rw [zero_smul, add_zero]

/-! ## Week 14 notebook: vector projection (cells 6 and 8) -/

/-- `np.linalg.norm` of a 2-vector. -/
noncomputable def npNorm2 (v : Fin 2 → ℝ) : ℝ :=
  Real.sqrt (v 0 ^ 2 + v 1 ^ 2)

/-- Cell 6: `proj_b_to_a = np.sum(b * a) / length_a` (elementwise product
summed, divided by the norm of `a`). -/
noncomputable def proj_b_to_a (a b : Fin 2 → ℝ) : ℝ :=
  (∑ i, b i * a i) / npNorm2 a

/-- Cell 8's `reshape(2, 1)`: the 2-vector as a 2×1 column matrix. -/
def reshape2x1 (v : Fin 2 → ℝ) : Matrix (Fin 2) (Fin 1) ℝ :=
  fun i _ => v i

/-- Cell 8: `proj_b_to_a_fancy = a_2d.T.dot(b_2d) / length_a`, whose
single entry sits at index `(0, 0)`. -/
noncomputable def proj_b_to_a_fancy (a b : Fin 2 → ℝ) : ℝ :=
  ((reshape2x1 a)ᵀ * reshape2x1 b) 0 0 / npNorm2 a

/-! ## Week 14 notebook: feature covariance (cell 26) -/

/-- Cell 26: `y_demean = y - y.mean(0)`, subtracting each column's mean
(the mean over the `m` rows). -/
def y_demean {m n : ℕ} (y : Matrix (Fin m) (Fin n) ℚ) : Matrix (Fin m) (Fin n) ℚ :=
  fun i j => y i j - (∑ k, y k j) / (m : ℚ)

/-- Cell 26: `ycov = y_demean.T.dot(y_demean); ycov /= (len(y)-1)`
(`len(y)` is the number of rows of `y`). -/
def ycov {m n : ℕ} (y : Matrix (Fin m) (Fin n) ℚ) : Matrix (Fin n) (Fin n) ℚ :=
  ((y_demean y)ᵀ * y_demean y).map (· / ((m : ℚ) - 1))

/-- Elementwise division by `m - 1` is the scalar action of `(m - 1)⁻¹`. -/
lemma ycov_eq_smul {m n : ℕ} (y : Matrix (Fin m) (Fin n) ℚ) :
    ycov y = ((m : ℚ) - 1)⁻¹ • ((y_demean y)ᵀ * y_demean y) := by
  unfold ycov
  ext i j
  simp [Matrix.map_apply, Matrix.smul_apply, div_eq_inv_mul, mul_comm]

/-! ## Helper lemmas for the one-hot conversion -/

/-- Python `list.index` (= `List.indexOf`) returns a position strictly
before which the sought element does not occur. -/
lemma getD_ne_of_lt_indexOf (names : List String) (l : String) :
    ∀ k, k < names.indexOf l → names.getD k "" ≠ l := by
  induction names with
  | nil => intro k hk; simp [List.indexOf] at hk
  | cons n ns ih =>
    intro k hk
    by_cases hn : n = l
    · rw [List.indexOf_cons_eq _ hn] at hk; omega
    · rw [List.indexOf_cons_ne _ hn] at hk
      cases k with
      | zero => simpa using hn
      | succ k => exact ih k (Nat.lt_of_succ_lt_succ hk)

/-- Entry `j` of a one-hot row is `1` exactly at the index Python
`list.index` returns, `0` elsewhere. -/
lemma oneHotRow_getD (names : List String) (l : String) (j : Nat)
    (hj : j < names.length) :
    (oneHotRow names l).getD j 0 = if j = names.indexOf l then 1 else 0 := by
  unfold oneHotRow
  rw [List.getD_eq_getElem _ _ (by simpa using hj)]
  rw [List.getElem_set]
  simp only [List.getElem_replicate]
  by_cases h : names.indexOf l = j
  · simp [h]
  · rw [if_neg (fun hh : j = names.indexOf l => h hh.symm), if_neg h]

/-- A one-hot row over a vocabulary containing the label sums to `1`. -/
lemma oneHotRow_sum (names : List String) (l : String) (hl : l ∈ names) :
    (oneHotRow names l).sum = 1 := by
  have hidx : names.indexOf l < names.length := List.indexOf_lt_length.2 hl
  unfold oneHotRow
  rw [List.sum_set]
  simp [List.take_replicate, List.drop_replicate, List.sum_replicate, hidx]

/-! ## Theorems -/

/-- C6: every tag specification configured in the labeler notebook
(the four `tag_specs` lists and `distance_features`) contains the
mandatory sentinel label `"untagged"`. -/
theorem untagged_in_all_tag_specs :
    "untagged" ∈ tag_specs_outdoors ∧
    "untagged" ∈ tag_specs_evoked_emotion ∧
    "untagged" ∈ tag_specs_reward ∧
    "untagged" ∈ tag_specs_curves_vs_lines ∧
    "untagged" ∈ distance_features := by
  refine ⟨?_, ?_, ?_, ?_, ?_⟩ <;> decide

/-- C7: `label_range = range(0, 1386, 1)` holds exactly the 1386 indices
`0` through `1385`, `1386 = 1260 + 126`, and the design matrix built from a
label list has one row per label, hence 1386 rows on a conforming list. -/
theorem label_range_count :
    label_range.length = 1386 ∧
    label_range.length = 1260 + 126 ∧
    (∀ i : Nat, i ∈ label_range ↔ i < 1386) ∧
    (∀ names labels : List String, (designMatrix names labels).length = labels.length) := by
  have hr : label_range = List.range 1386 := by
    unfold label_range pyRange
    norm_num
  refine ⟨by rw [hr]; simp, by rw [hr]; simp, ?_, ?_⟩
  · intro i
    rw [hr]
    exact List.mem_range
  · intro names labels
    unfold designMatrix
    exact List.length_map _ _

/-- C1: on a label list whose every entry occurs in the vocabulary
`names`, the notebook's conversion yields a matrix with one row per label
and one column per vocabulary entry, each row holding `1.0` exactly at the
index of the first occurrence of its label in `names` and `0.0` elsewhere,
so each row sums to `1`. -/
theorem oneHot_designMatrix (names labels : List String)
    (h : ∀ l ∈ labels, l ∈ names) :
    (designMatrix names labels).length = labels.length ∧
    (∀ row ∈ designMatrix names labels, row.length = names.length) ∧
    (∀ i, i < labels.length → ∀ j, j < names.length →
      ((designMatrix names labels).getD i []).getD j 0 =
        if j = names.indexOf (labels.getD i "") then 1 else 0) ∧
    (∀ l ∈ labels,
      names.indexOf l < names.length ∧
      names.getD (names.indexOf l) "" = l ∧
      ∀ k, k < names.indexOf l → names.getD k "" ≠ l) ∧
    (∀ row ∈ designMatrix names labels, row.sum = 1) := by
  refine ⟨by simp [designMatrix], ?_, ?_, ?_, ?_⟩
  · intro row hrow
    obtain ⟨l, _, rfl⟩ := List.mem_map.1 hrow
    simp [oneHotRow]
  · intro i hi j hj
    have hrow : ((designMatrix names labels).getD i []) =
        oneHotRow names (labels.getD i "") := by
      unfold designMatrix
      rw [List.getD_eq_getElem _ _ (by simpa using hi), List.getElem_map,
        List.getD_eq_getElem _ _ hi]
    rw [hrow, oneHotRow_getD _ _ _ hj]
  · intro l hl
    have hmem := h l hl
    have hidx : names.indexOf l < names.length := List.indexOf_lt_length.2 hmem
    refine ⟨hidx, ?_, getD_ne_of_lt_indexOf names l⟩
    rw [List.getD_eq_getElem _ _ hidx]
    exact List.getElem_indexOf hidx
  · intro row hrow
    obtain ⟨l, hl, rfl⟩ := List.mem_map.1 hrow
    exact oneHotRow_sum names l (h l hl)

/-- C1 witness: the single label `"untagged"` over the `distance`
vocabulary produces the row with `1` in the last (index `5`) column. -/
theorem oneHot_designMatrix_witness :
    ((designMatrix distance_features ["untagged"]).getD 0 []).getD 5 0 = 1 := by
  have h := oneHot_designMatrix distance_features ["untagged"] (by decide)
  have he := h.2.2.1 0 (by decide) 5 (by decide)
  rw [he]
  decide

/-- C3: against the spec's file format, the consumer cell does NOT read
the labels at the top-level tag-specification key.  On a file carrying the
label array `["untagged"]` at top-level key `"distance"` and the echoed
specification under `"tag_specs"`, the cell's expression
`features['tag_specs']['distance']` returns the echoed specification
(the six levels), not the label array found at top-level `"distance"`. -/
theorem consumer_reads_echo_not_labels :
    consumer_feature_labels (labelerOutput ["untagged"]) = some distance_features ∧
    jlookup (labelerOutput ["untagged"]) "distance" = some (JVal.strs ["untagged"]) ∧
    consumer_feature_labels (labelerOutput ["untagged"]) ≠ some ["untagged"] := by
  refine ⟨rfl, rfl, ?_⟩
  decide

/-- C4: `gauss` is not the standard Gaussian its docstring and the spec
describe: at `x = 1`, `mu = 0`, `sigma = 2`, `amp = 1` the code yields
`exp (-1/4)` while the standard function yields `exp (-1/8)`. -/
theorem gauss_missing_square :
    gauss 1 0 2 1 = Real.exp (-(1 / 4)) ∧
    gauss_std 1 0 2 1 = Real.exp (-(1 / 8)) ∧
    gauss 1 0 2 1 ≠ gauss_std 1 0 2 1 := by
  have h1 : gauss 1 0 2 1 = Real.exp (-(1 / 4)) := by
    unfold gauss; norm_num
  have h2 : gauss_std 1 0 2 1 = Real.exp (-(1 / 8)) := by
    unfold gauss_std; norm_num
  refine ⟨h1, h2, ?_⟩
  rw [h1, h2]
  exact ne_of_lt (Real.exp_lt_exp.2 (by norm_num))

/-- C2: when `XᵀX` is invertible, `ridge(X, Y, 0)` is exactly the
ordinary-least-squares solution `(XᵀX)⁻¹ Xᵀ Y`, and the returned
coefficients satisfy the normal equations `XᵀX b = Xᵀ Y`. -/
theorem ridge_zero_is_OLS {m n : ℕ} (X : Matrix (Fin m) (Fin n) ℚ) (Y : Fin m → ℚ)
    (h : (Xᵀ * X).det ≠ 0) :
    ridge X Y 0 = (Xᵀ * X)⁻¹.mulVec (Xᵀ.mulVec Y) ∧
    (Xᵀ * X).mulVec (ridge X Y 0) = Xᵀ.mulVec Y := by
  have hols : ridge X Y 0 = (Xᵀ * X)⁻¹.mulVec (Xᵀ.mulVec Y) := by
    unfold ridge
    rw [gram_add_zero_smul, matInvQ_eq_inv]
  refine ⟨hols, ?_⟩
  rw [hols, Matrix.mulVec_mulVec,
    Matrix.mul_nonsing_inv _ (isUnit_iff_ne_zero.2 h), Matrix.one_mulVec]

/-- C2 witness: the 1×1 system `X = [[2]]`, `Y = [3]`. -/
theorem ridge_zero_is_OLS_witness :
    ridge !![(2 : ℚ)] ![3] 0 =
      (!![(2 : ℚ)]ᵀ * !![(2 : ℚ)])⁻¹.mulVec (!![(2 : ℚ)]ᵀ.mulVec ![3]) ∧
    (!![(2 : ℚ)]ᵀ * !![(2 : ℚ)]).mulVec (ridge !![(2 : ℚ)] ![3] 0) =
      !![(2 : ℚ)]ᵀ.mulVec ![3] :=
  ridge_zero_is_OLS !![(2 : ℚ)] ![3]
    (by simp [Matrix.det_fin_one, Matrix.mul_apply])

/-- C5: the checked `ridge` call fails exactly when `XᵀX + aI` is
singular; whenever that matrix is non-singular it returns a coefficient
vector indexed by the columns of `X`; and the calling cell
`B_est = ridge(Xreg, y, a=0)` is the bare call, so a failure is the
cell's outcome with nothing catching it. -/
theorem ridge_failure_iff_singular {m n : ℕ} (X : Matrix (Fin m) (Fin n) ℚ)
    (Y : Fin m → ℚ) (a : ℚ) :
    (ridgeChecked X Y a = none ↔
      (Xᵀ * X + a • (1 : Matrix (Fin n) (Fin n) ℚ)).det = 0) ∧
    ((Xᵀ * X + a • (1 : Matrix (Fin n) (Fin n) ℚ)).det ≠ 0 →
      ridgeChecked X Y a = some (ridge X Y a)) ∧
    B_est X Y = ridgeChecked X Y 0 := by
  refine ⟨?_, ?_, rfl⟩
  · unfold ridgeChecked
    by_cases h : (Xᵀ * X + a • (1 : Matrix (Fin n) (Fin n) ℚ)).det = 0
    · rw [if_pos h]
      exact iff_of_true rfl h
    · rw [if_neg h]
      exact iff_of_false (by simp) h
  · intro h
    unfold ridgeChecked
    rw [if_neg h]

/-- C5 witness: the concrete call at `X = [[1]]`, `Y = [2]`, `a = 0`. -/
theorem ridge_failure_iff_singular_witness :
    (ridgeChecked !![(1 : ℚ)] ![2] 0 = none ↔
      (!![(1 : ℚ)]ᵀ * !![(1 : ℚ)] + (0 : ℚ) • (1 : Matrix (Fin 1) (Fin 1) ℚ)).det = 0) ∧
    ((!![(1 : ℚ)]ᵀ * !![(1 : ℚ)] + (0 : ℚ) • (1 : Matrix (Fin 1) (Fin 1) ℚ)).det ≠ 0 →
      ridgeChecked !![(1 : ℚ)] ![2] 0 = some (ridge !![(1 : ℚ)] ![2] 0)) ∧
    B_est !![(1 : ℚ)] ![2] = ridgeChecked !![(1 : ℚ)] ![2] 0 :=
  ridge_failure_iff_singular !![(1 : ℚ)] ![2] 0

/-- C8: for 2-vectors `a ≠ 0` and `b`, the elementwise computation
`np.sum(b * a) / norm(a)` of cell 6 and the matrix computation
`a.reshape(2,1).T.dot(b.reshape(2,1)) / norm(a)` of cell 8 agree. -/
theorem projection_forms_agree (a b : Fin 2 → ℝ) (_ha : a ≠ 0) :
    proj_b_to_a a b = proj_b_to_a_fancy a b := by
  unfold proj_b_to_a proj_b_to_a_fancy reshape2x1
  congr 1
  rw [Matrix.mul_apply]
  simp [Matrix.transpose_apply, Fin.sum_univ_two, mul_comm]

/-- C8 witness: the notebook's own vectors `a = [2, 7]`, `b = [3, 4]`. -/
theorem projection_forms_agree_witness :
    (![2, 7] : Fin 2 → ℝ) ≠ 0 ∧
    proj_b_to_a ![2, 7] ![3, 4] = proj_b_to_a_fancy ![2, 7] ![3, 4] := by
  have ha : (![2, 7] : Fin 2 → ℝ) ≠ 0 := by
    intro hc
    have h0 := congrFun hc 0
    norm_num at h0
  exact ⟨ha, projection_forms_agree ![2, 7] ![3, 4] ha⟩

/-- C10: for a data matrix with at least two rows, the feature covariance
matrix of cell 26 is symmetric and positive semidefinite. -/
theorem ycov_symmetric_psd {m n : ℕ} (y : Matrix (Fin m) (Fin n) ℚ)
    (hm : 2 ≤ m) :
    (ycov y)ᵀ = ycov y ∧
    ∀ v : Fin n → ℚ, 0 ≤ Matrix.dotProduct v ((ycov y).mulVec v) := by
  have hc : (0 : ℚ) ≤ ((m : ℚ) - 1)⁻¹ := by
    have h1 : (1 : ℚ) ≤ (m : ℚ) := by
      have : (1 : ℚ) ≤ (2 : ℚ) := by norm_num
      calc (1 : ℚ) ≤ 2 := this
        _ ≤ (m : ℚ) := by exact_mod_cast hm
    have : (0 : ℚ) ≤ (m : ℚ) - 1 := by linarith
    exact inv_nonneg.2 this
  constructor
  · rw [ycov_eq_smul, Matrix.transpose_smul, Matrix.transpose_mul,
      Matrix.transpose_transpose]
  · intro v
    rw [ycov_eq_smul, Matrix.smul_mulVec_assoc, Matrix.dotProduct_smul,
      ← Matrix.mulVec_mulVec, Matrix.dotProduct_mulVec, Matrix.vecMul_transpose]
    refine mul_nonneg hc ?_
    exact Finset.sum_nonneg fun i _ => mul_self_nonneg _

/-- C10 witness: the 2×1 data matrix `[[1], [3]]` and the test vector
`[5]`. -/
theorem ycov_symmetric_psd_witness :
    (ycov !![(1 : ℚ); 3])ᵀ = ycov !![(1 : ℚ); 3] ∧
    0 ≤ Matrix.dotProduct ![5] ((ycov !![(1 : ℚ); 3]).mulVec ![5]) :=
  ⟨(ycov_symmetric_psd !![(1 : ℚ); 3] (by norm_num)).1,
   (ycov_symmetric_psd !![(1 : ℚ); 3] (by norm_num)).2 ![5]⟩

/-- C9: the helpers `gauss`, `sinx` and `ridge` and the one-hot
conversion are deterministic pure functions of their arguments: two
evaluations on identical inputs yield identical outputs (each is defined
as a function of its arguments alone, with no other state to read or
mutate). -/
theorem helpers_deterministic :
    (∀ x₁ mu₁ s₁ A₁ x₂ mu₂ s₂ A₂ : ℝ,
      x₁ = x₂ → mu₁ = mu₂ → s₁ = s₂ → A₁ = A₂ →
      gauss x₁ mu₁ s₁ A₁ = gauss x₂ mu₂ s₂ A₂) ∧
    (∀ x₁ f₁ p₁ A₁ x₂ f₂ p₂ A₂ : ℝ,
      x₁ = x₂ → f₁ = f₂ → p₁ = p₂ → A₁ = A₂ →
      sinx x₁ f₁ p₁ A₁ = sinx x₂ f₂ p₂ A₂) ∧
    (∀ (m n : ℕ) (X₁ X₂ : Matrix (Fin m) (Fin n) ℚ) (Y₁ Y₂ : Fin m → ℚ)
      (a₁ a₂ : ℚ), X₁ = X₂ → Y₁ = Y₂ → a₁ = a₂ →
      ridge X₁ Y₁ a₁ = ridge X₂ Y₂ a₂) ∧
    (∀ names₁ names₂ labels₁ labels₂ : List String,
      names₁ = names₂ → labels₁ = labels₂ →
      designMatrix names₁ labels₁ = designMatrix names₂ labels₂) := by
  refine ⟨?_, ?_, ?_, ?_⟩
  · intro x₁ mu₁ s₁ A₁ x₂ mu₂ s₂ A₂ hx hmu hs hA
    rw [hx, hmu, hs, hA]
  · intro x₁ f₁ p₁ A₁ x₂ f₂ p₂ A₂ hx hf hp hA
    rw [hx, hf, hp, hA]
  · intro m n X₁ X₂ Y₁ Y₂ a₁ a₂ hX hY ha
    rw [hX, hY, ha]
  · intro names₁ names₂ labels₁ labels₂ hn hl
    rw [hn, hl]

/-- C9 witness: two evaluations of each helper on the same concrete
input coincide. -/
theorem helpers_deterministic_witness :
    gauss 1 0 2 1 = gauss 1 0 2 1 ∧
    sinx 1 1 0 1 = sinx 1 1 0 1 ∧
    ridge !![(1 : ℚ)] ![2] 0 = ridge !![(1 : ℚ)] ![2] 0 ∧
    designMatrix distance_features ["untagged"] =
      designMatrix distance_features ["untagged"] :=
  ⟨helpers_deterministic.1 1 0 2 1 1 0 2 1 rfl rfl rfl rfl,
   helpers_deterministic.2.1 1 1 0 1 1 1 0 1 rfl rfl rfl rfl,
   helpers_deterministic.2.2.1 1 1 !![(1 : ℚ)] !![(1 : ℚ)] ![2] ![2] 0 0 rfl rfl rfl,
   helpers_deterministic.2.2.2 distance_features distance_features
     ["untagged"] ["untagged"] rfl rfl⟩

end UNRPSY763
